import Mathlib

/-!
Verification of the Repository Scoring & Enhancement Pipeline.

This file gives a shallow embedding, in Lean 4, of the scoring and
aggregation code of the `ai-portfolio-website` backend:

* `app/services/github/repository_analyzer.py` — single-repository scorer;
* `app/services/github/enhanced_analyzer.py` — similarity search,
  comparison-set aggregation, recommendation generation, enhanced scores;
* `app/services/portfolio_analyzer.py` — portfolio-level rollup.

Modelling conventions:

* Python floats are modelled as exact rationals (`ℚ`).  Every float
  literal appearing in the scoring code (0.1, 0.2, 0.5, …) is represented
  by the exact rational it denotes in the source text.
* Timestamps are modelled as rational instants measured in days.  A field
  that the Python code obtains by calling `datetime.fromisoformat` inside
  a `try` block is modelled as the outcome of that parse:
  `Option ℚ`, with `none` standing for a string on which
  `fromisoformat` raises.  `datetime.now()` becomes an explicit `now : ℚ`
  parameter; `(a - b).days` becomes `⌊a - b⌋`.
* Python dicts that are built by insertion are modelled as association
  lists in insertion order; `dict.get`/`in` become `List.lookup` /
  membership of the key list.
* Code that can raise is modelled in `Except` / `Option`; a `try/except`
  returning a default becomes a `match` on that value.
* Narrative string fields that are never consumed by any scoring or
  aggregation path (insights, free-text descriptions, AI text) are not
  modelled; data that a formatted string carries and that the claims talk
  about (the listed missing topics) is kept as structured data.
-/

namespace Portfolio

/-- `RepositoryData` from `app/interfaces/github_interface.py`.
`created_at`/`updated_at` are the outcomes of `datetime.fromisoformat`
on the corresponding ISO strings (`none` = unparseable). -/
structure RepositoryData where
  id : Nat
  name : String
  full_name : String
  description : Option String
  language : Option String
  stars : Nat
  forks : Nat
  created_at : Option ℚ
  updated_at : Option ℚ
  topics : List String
  size : Nat
  url : String
deriving DecidableEq, Repr

/-- One contributor entry; the scorer only uses the length of the list. -/
structure Contributor where
  login : String
deriving DecidableEq, Repr

/-- One issue entry; the scorer only reads its `state` string. -/
structure Issue where
  state : String
deriving DecidableEq, Repr

/-- One commit entry; the scorer only reads its `date` field, modelled as
the outcome of `datetime.fromisoformat(commit["date"]...)`. -/
structure Commit where
  date : Option ℚ
deriving DecidableEq, Repr

/-- `AnalysisResult` from `app/interfaces/github_interface.py`
(narrative `insights`/`recommendations`/`timestamp` fields omitted:
no scoring path reads them). -/
structure AnalysisResult where
  repository : RepositoryData
  technical_score : ℚ
  quality_score : ℚ
  activity_score : ℚ
  overall_score : ℚ
deriving DecidableEq, Repr

/-- The `complexity_map` dict of
`RepositoryAnalyzerService._get_language_complexity`. -/
def complexity_map : List (String × ℚ) :=
  [("Assembly", 10), ("C++", 9), ("C", 8), ("Rust", 8), ("Go", 7),
   ("Java", 6), ("C#", 6), ("Python", 5), ("JavaScript", 4), ("TypeScript", 5),
   ("PHP", 4), ("Ruby", 4), ("Swift", 6), ("Kotlin", 6), ("Scala", 7),
   ("HTML", 2), ("CSS", 2), ("Markdown", 1), ("Shell", 3)]

/-- `RepositoryAnalyzerService._get_language_complexity`:
`complexity_map.get(language, 5.0)`. -/
def get_language_complexity (language : String) : ℚ :=
  (complexity_map.lookup language).getD 5

/-- The inline clamp `max(1.0, min(10.0, score))` that ends each of the
three score calculations. -/
def clamp110 (score : ℚ) : ℚ :=
  max 1 (min 10 score)

/-- `RepositoryAnalyzerService._calculate_technical_score`. -/
def calculate_technical_score (repository : RepositoryData)
    (languages : List (String × Nat)) : ℚ :=
  let score : ℚ := 5
  let score := match repository.language with
    | some lang => score + (get_language_complexity lang - 5) * 0.2
    | none => score
  let score :=
    if repository.size > 10000 then score + 1
    else if repository.size > 1000 then score + 0.5
    else score
  let score := if languages.length > 3 then score + 0.5 else score
  let score :=
    if repository.topics ≠ [] then
      if ["ai", "ml", "blockchain", "quantum", "distributed"].any
          (fun topic => repository.topics.contains topic) then score + 1
      else score
    else score
  clamp110 score

/-- `RepositoryAnalyzerService._calculate_quality_score`. -/
def calculate_quality_score (repository : RepositoryData)
    (contributors : List Contributor) (issues : List Issue) : ℚ :=
  let score : ℚ := 5
  let score := match repository.description with
    | some d => if d.length > 50 then score + 1 else score
    | none => score
  let score := if contributors.length > 1 then score + 1 else score
  let score :=
    if issues ≠ [] then
      let open_issues := (issues.filter (fun i => i.state == "open")).length
      if open_issues < 10 then score + 1 else score
    else score
  let score := if repository.stars > 10 then score + 0.5 else score
  let score := if repository.forks > 5 then score + 0.5 else score
  clamp110 score

/-- `RepositoryAnalyzerService._calculate_activity_score`.  A commit whose
date fails to parse is skipped (the bare `except: continue` of the loop);
a `created_at` that fails to parse yields `age_days = 0`. -/
def calculate_activity_score (repository : RepositoryData)
    (commits : List Commit) (now : ℚ) : ℚ :=
  let score : ℚ := 5
  let score :=
    if commits ≠ [] then
      let cutoff_date := now - 90
      let recent_commits :=
        (commits.filter (fun c =>
          match c.date with
          | some d => decide (d > cutoff_date)
          | none => false)).length
      if recent_commits > 10 then score + 2
      else if recent_commits > 5 then score + 1
      else if recent_commits > 0 then score + 0.5
      else score
    else score
  let age_days : ℤ := match repository.created_at with
    | some created => ⌊now - created⌋
    | none => 0
  let score := if age_days > 365 then score + 0.5 else score
  clamp110 score

/-- The pure core of `RepositoryAnalyzerService.analyze_repository`: the
already-fetched signals are parameters, the four scores are computed as in
lines 34–53 of `repository_analyzer.py`. -/
def analyze_repository (repository : RepositoryData)
    (languages : List (String × Nat)) (contributors : List Contributor)
    (commits : List Commit) (issues : List Issue) (now : ℚ) : AnalysisResult :=
  let technical_score := calculate_technical_score repository languages
  let quality_score := calculate_quality_score repository contributors issues
  let activity_score := calculate_activity_score repository commits now
  let overall_score := (technical_score + quality_score + activity_score) / 3
  { repository := repository
    technical_score := technical_score
    quality_score := quality_score
    activity_score := activity_score
    overall_score := overall_score }

theorem clamp110_le_ten (q : ℚ) : clamp110 q ≤ 10 := by
  unfold clamp110
  have h1 : (1 : ℚ) ≤ 10 := by norm_num
  exact max_le h1 (min_le_left _ _)

theorem one_le_clamp110 (q : ℚ) : 1 ≤ clamp110 q :=
  le_max_left _ _

theorem five_le_clamp110 (q : ℚ) (h : 5 ≤ q) : 5 ≤ clamp110 q := by
  unfold clamp110
  have : (5 : ℚ) ≤ min 10 q := le_min (by norm_num) h
  exact le_trans this (le_max_right _ _)

theorem technical_score_bounds (repository : RepositoryData)
    (languages : List (String × Nat)) :
    1 ≤ calculate_technical_score repository languages ∧
      calculate_technical_score repository languages ≤ 10 := by
  unfold calculate_technical_score
  exact ⟨one_le_clamp110 _, clamp110_le_ten _⟩

theorem quality_score_bounds (repository : RepositoryData)
    (contributors : List Contributor) (issues : List Issue) :
    1 ≤ calculate_quality_score repository contributors issues ∧
      calculate_quality_score repository contributors issues ≤ 10 := by
  unfold calculate_quality_score
  exact ⟨one_le_clamp110 _, clamp110_le_ten _⟩

theorem activity_score_bounds (repository : RepositoryData)
    (commits : List Commit) (now : ℚ) :
    1 ≤ calculate_activity_score repository commits now ∧
      calculate_activity_score repository commits now ≤ 10 := by
  unfold calculate_activity_score
  exact ⟨one_le_clamp110 _, clamp110_le_ten _⟩

/-- Claim C1: for every repository and every set of fetched signals, the
single-repository scorer returns technical, quality, activity and overall
scores that each lie in [1, 10], and the overall score equals the
arithmetic mean of the technical, quality and activity scores. -/
theorem C1_scoreset_bounds_and_mean (repository : RepositoryData)
    (languages : List (String × Nat)) (contributors : List Contributor)
    (commits : List Commit) (issues : List Issue) (now : ℚ) :
    let res := analyze_repository repository languages contributors commits issues now
    (1 ≤ res.technical_score ∧ res.technical_score ≤ 10) ∧
    (1 ≤ res.quality_score ∧ res.quality_score ≤ 10) ∧
    (1 ≤ res.activity_score ∧ res.activity_score ≤ 10) ∧
    (1 ≤ res.overall_score ∧ res.overall_score ≤ 10) ∧
    res.overall_score =
      (res.technical_score + res.quality_score + res.activity_score) / 3 := by
  intro res
  have ht := technical_score_bounds repository languages
  have hq := quality_score_bounds repository contributors issues
  have ha := activity_score_bounds repository commits now
  have hres_t : res.technical_score = calculate_technical_score repository languages := rfl
  have hres_q : res.quality_score = calculate_quality_score repository contributors issues := rfl
  have hres_a : res.activity_score = calculate_activity_score repository commits now := rfl
  have hres_o : res.overall_score =
      (res.technical_score + res.quality_score + res.activity_score) / 3 := rfl
  refine ⟨?_, ?_, ?_, ?_, hres_o⟩
  · rw [hres_t]; exact ht
  · rw [hres_q]; exact hq
  · rw [hres_a]; exact ha
  · rw [hres_o, hres_t, hres_q, hres_a]
    constructor
    · have := ht.1; have := hq.1; have := ha.1; linarith
    · have := ht.2; have := hq.2; have := ha.2; linarith

theorem five_le_quality_raw (repository : RepositoryData)
    (contributors : List Contributor) (issues : List Issue) :
    5 ≤ calculate_quality_score repository contributors issues := by
  unfold calculate_quality_score
  apply five_le_clamp110
  cases repository.description <;>
    · simp only
      split_ifs <;> norm_num

theorem five_le_activity_raw (repository : RepositoryData)
    (commits : List Commit) (now : ℚ) :
    5 ≤ calculate_activity_score repository commits now := by
  unfold calculate_activity_score
  apply five_le_clamp110
  cases repository.created_at <;>
    · simp only
      split_ifs <;> norm_num

/-- Claim C10: the quality score and the activity score are always at
least 5.0: both start from a 5.0 base and every rule of those two
calculations only adds a non-negative bonus. -/
theorem C10_quality_activity_floor (repository : RepositoryData)
    (contributors : List Contributor) (issues : List Issue)
    (commits : List Commit) (now : ℚ) :
    5 ≤ calculate_quality_score repository contributors issues ∧
      5 ≤ calculate_activity_score repository commits now :=
  ⟨five_le_quality_raw repository contributors issues,
   five_le_activity_raw repository commits now⟩

/-- A search-result entry of `EnhancedGitHubAnalyzer`: the fields of a
GitHub search item that the enhanced analyzer reads.  `updated_at` is the
outcome of `datetime.fromisoformat(repo['updated_at']...)` (`none` =
the parse raises). -/
structure CandidateRepo where
  full_name : String
  stargazers_count : Nat
  forks_count : Nat
  language : Option String
  description : Option String
  topics : List String
  updated_at : Option ℚ
deriving DecidableEq, Repr

/-- Regex `\w` (ASCII): the word characters that `\b` tests. -/
def isWordChar (c : Char) : Bool :=
  c.isAlphanum || c == '_'

/-- The character class `[a-zA-Z0-9-]` of the keyword regex. -/
def isClassChar (c : Char) : Bool :=
  c.isAlphanum || c == '-'

/-- Word-character test against an optional character (string edge = not
a word character). -/
def isWordOpt : Option Char → Bool
  | none => false
  | some c => isWordChar c

/-- Backtracking step of the regex engine: given the maximal run of class
characters starting at the match position and the character following the
run, the largest `k ∈ [1, run.length]` such that a word boundary holds
after `run.take k` (the greedy `+` backtracks until the trailing `\b`
matches). -/
def find_match_end (run : List Char) (next_after : Option Char) : Option Nat :=
  ((List.range run.length).reverse).findSome? (fun j =>
    match run.get? j with
    | none => none
    | some last =>
      let next : Option Char :=
        match run.get? (j + 1) with
        | some c => some c
        | none => next_after
      if isWordChar last != isWordOpt next then some (j + 1) else none)

/-- Left-to-right scan of `re.findall(r'\b[a-zA-Z0-9-]+\b', text)`:
`prev` is the character before the current position (`none` at the start
of the string).  At each position with a leading word boundary and a
class character, the greedy run is taken and backtracked to a trailing
boundary; on success the scan resumes after the match, on failure it
advances one character.  `fuel` bounds the recursion (each step consumes
at least one character, so `length + 1` fuel always suffices). -/
def scan_tokens : Nat → Option Char → List Char → List (List Char)
  | 0, _, _ => []
  | _ + 1, _, [] => []
  | fuel + 1, prev, c :: rest =>
    if (isWordOpt prev != isWordChar c) && isClassChar c then
      let run := (c :: rest).takeWhile isClassChar
      let after := (c :: rest).dropWhile isClassChar
      match find_match_end run after.head? with
      | some k =>
        let tok := run.take k
        tok :: scan_tokens fuel tok.getLast? (run.drop k ++ after)
      | none => scan_tokens fuel (some c) rest
    else scan_tokens fuel (some c) rest

/-- `re.findall(r'\b[a-zA-Z0-9-]+\b', s)` as a list of strings. -/
def findall_word_tokens (s : String) : List String :=
  (scan_tokens (s.length + 1) none s.data).map (fun cs => String.mk cs)

/-- The `common_words` stop-word set of
`EnhancedGitHubAnalyzer._extract_keywords`. -/
def common_words : List String :=
  ["the", "a", "an", "and", "or", "but", "in", "on", "at", "to", "for",
   "of", "with", "by", "is", "are", "was", "were", "be", "been", "have",
   "has", "had", "do", "does", "did", "will", "would", "could", "should"]

/-- Python `str.lower()` (ASCII), applied characterwise. -/
def str_lower (s : String) : String :=
  String.mk (s.data.map Char.toLower)

/-- `EnhancedGitHubAnalyzer._extract_keywords`. -/
def extract_keywords (text : String) : List String :=
  if text = "" then []
  else
    let words := findall_word_tokens (str_lower text)
    let keywords :=
      words.filter (fun word => decide (2 < word.length ∧ word ∉ common_words))
    keywords.take 10

/-- One step of the deduplication loop of
`EnhancedGitHubAnalyzer._search_similar_repositories`: insert `repo` into
the `unique_repos` dict (modelled as a list in insertion order; a later
duplicate replaces the stored entry, keeping its position, only when it
has strictly more stars). -/
def dedup_step (acc : List CandidateRepo) (repo : CandidateRepo) :
    List CandidateRepo :=
  if repo.full_name ∈ acc.map (fun r => r.full_name) then
    acc.map (fun stored =>
      if stored.full_name = repo.full_name ∧
          stored.stargazers_count < repo.stargazers_count then repo
      else stored)
  else acc ++ [repo]

/-- The `unique_repos` dict of
`EnhancedGitHubAnalyzer._search_similar_repositories`, in insertion
order. -/
def dedup_by_full_name (repos : List CandidateRepo) : List CandidateRepo :=
  repos.foldl dedup_step []

/-- The ordering of `sorted(..., key=lambda x: x['stargazers_count'],
reverse=True)`: `a` precedes `b` when `a` has at least as many stars
(Python's sort is stable, as is `List.insertionSort`). -/
def stars_ge (a b : CandidateRepo) : Prop :=
  b.stargazers_count ≤ a.stargazers_count

instance : DecidableRel stars_ge := fun a b =>
  inferInstanceAs (Decidable (b.stargazers_count ≤ a.stargazers_count))

instance : IsTotal CandidateRepo stars_ge :=
  ⟨fun a b => le_total b.stargazers_count a.stargazers_count⟩

instance : IsTrans CandidateRepo stars_ge :=
  ⟨fun _ _ _ hab hbc => le_trans hbc hab⟩

/-- The dedup-sort-truncate tail of
`EnhancedGitHubAnalyzer._search_similar_repositories` (lines 95–105):
deduplicate the pooled search results by full name, sort descending by
star count, return the top 20. -/
def select_similar (repos : List CandidateRepo) : List CandidateRepo :=
  ((dedup_by_full_name repos).insertionSort stars_ge).take 20

theorem dedup_step_names (acc : List CandidateRepo) (repo : CandidateRepo) :
    (dedup_step acc repo).map (fun r => r.full_name) =
      acc.map (fun r => r.full_name) ∨
    (dedup_step acc repo).map (fun r => r.full_name) =
      acc.map (fun r => r.full_name) ++ [repo.full_name] := by
  unfold dedup_step
  split_ifs with h
  · left
    rw [List.map_map]
    apply List.map_congr_left
    intro stored _
    simp only [Function.comp_apply]
    split_ifs with hc
    · exact hc.1.symm
    · rfl
  · right
    simp

theorem dedup_step_nodup (acc : List CandidateRepo) (repo : CandidateRepo)
    (h : (acc.map (fun r => r.full_name)).Nodup) :
    ((dedup_step acc repo).map (fun r => r.full_name)).Nodup := by
  rcases dedup_step_names acc repo with heq | heq
  · rw [heq]; exact h
  · rw [heq]
    by_cases hmem : repo.full_name ∈ acc.map (fun r => r.full_name)
    · unfold dedup_step at heq
      rw [if_pos hmem] at heq
      have hlen := congrArg List.length heq
      simp at hlen
    · simp only [List.nodup_append, List.nodup_cons, List.nodup_nil]
      exact ⟨h, ⟨by simp, trivial⟩, by simpa using hmem⟩

theorem dedup_nodup (repos : List CandidateRepo) :
    ((dedup_by_full_name repos).map (fun r => r.full_name)).Nodup := by
  unfold dedup_by_full_name
  suffices h : ∀ acc : List CandidateRepo,
      (acc.map (fun r => r.full_name)).Nodup →
      ((repos.foldl dedup_step acc).map (fun r => r.full_name)).Nodup by
    exact h [] (by simp)
  induction repos with
  | nil => intro acc hacc; exact hacc
  | cons r rest ih =>
    intro acc hacc
    exact ih (dedup_step acc r) (dedup_step_nodup acc r hacc)

theorem dedup_of_nodup (repos : List CandidateRepo)
    (h : (repos.map (fun r => r.full_name)).Nodup) :
    dedup_by_full_name repos = repos := by
  unfold dedup_by_full_name
  suffices hgen : ∀ (zs acc : List CandidateRepo),
      ((acc ++ zs).map (fun r => r.full_name)).Nodup →
      zs.foldl dedup_step acc = acc ++ zs by
    simpa using hgen repos [] (by simpa using h)
  intro zs
  induction zs with
  | nil => intro acc _; simp
  | cons z rest ih =>
    intro acc hacc
    have hz_not : z.full_name ∉ acc.map (fun r => r.full_name) := by
      intro hmem
      rw [List.map_append, List.nodup_append] at hacc
      exact hacc.2.2 hmem (by simp)
    have hstep : dedup_step acc z = acc ++ [z] := by
      unfold dedup_step
      rw [if_neg hz_not]
    rw [List.foldl_cons, hstep]
    have := ih (acc ++ [z]) (by simpa using hacc)
    simpa using this

/-- Claim C8: the deduplicate-sort-truncate step of the similarity search
is idempotent — applied to a list that is already its output, it yields
the same list. -/
theorem C8_select_similar_idempotent (repos : List CandidateRepo) :
    select_similar (select_similar repos) = select_similar repos := by
  set ys := select_similar repos with hys
  have hnodup : (ys.map (fun r => r.full_name)).Nodup := by
    rw [hys]
    unfold select_similar
    apply List.Nodup.sublist
    · exact ((List.take_sublist _ _).map _)
    · have hperm := (List.perm_insertionSort stars_ge (dedup_by_full_name repos)).map
        (fun r => r.full_name)
      exact hperm.nodup_iff.mpr (dedup_nodup repos)
  have hsorted : ys.Sorted stars_ge := by
    rw [hys]
    unfold select_similar
    exact (List.sorted_insertionSort stars_ge _).sublist (List.take_sublist _ _)
  have htake : ys.take 20 = ys := by
    rw [hys]
    unfold select_similar
    rw [List.take_take]
    norm_num
  show select_similar ys = ys
  unfold select_similar
  rw [dedup_of_nodup ys hnodup, hsorted.insertionSort_eq, htake]

/-- The analysis dict built by
`EnhancedGitHubAnalyzer._analyze_top_repositories` (the always-empty
`readme_patterns`/`file_structure_patterns` lists are omitted). -/
structure TopReposAnalysis where
  total_analyzed : Nat
  average_stars : ℚ
  average_forks : ℚ
  common_languages : List (String × Nat)
  common_topics : List (String × Nat)
  best_practices : List String
deriving DecidableEq, Repr

/-- `d[k] = d.get(k, 0) + 1` on a dict modelled as an association list in
insertion order. -/
def bump_count (m : List (String × Nat)) (key : String) : List (String × Nat) :=
  if key ∈ m.map Prod.fst then
    m.map (fun p => if p.1 = key then (p.1, p.2 + 1) else p)
  else m ++ [(key, 1)]

/-- The practices appended for one candidate by
`EnhancedGitHubAnalyzer._extract_best_practices`; the bare
`datetime.fromisoformat(repo['updated_at']...)` raises on an unparseable
timestamp, which propagates (`Except.error`). -/
def best_practices_of (repo : CandidateRepo) (now : ℚ) :
    Except Unit (List String) :=
  let p1 := if repo.stargazers_count > 100 then
      ["High community engagement (100+ stars)"] else []
  let p2 := if repo.forks_count > 50 then
      ["Active community contribution (50+ forks)"] else []
  let p3 := match repo.description with
    | some d => if d.length > 50 then ["Comprehensive project description"] else []
    | none => []
  let p4 := if repo.topics.length > 3 then
      ["Well-categorized with multiple topics"] else []
  match repo.updated_at with
  | none => Except.error ()
  | some updated =>
    let p5 := if (⌊now - updated⌋ : ℤ) < 30 then
        ["Recent development activity"] else []
    Except.ok (p1 ++ p2 ++ p3 ++ p4 ++ p5)

/-- The loop of `EnhancedGitHubAnalyzer._extract_best_practices`: the
first unparseable `updated_at` aborts the whole loop. -/
def collect_practices : List CandidateRepo → ℚ → Except Unit (List String)
  | [], _ => Except.ok []
  | repo :: rest, now =>
    match best_practices_of repo now with
    | Except.error e => Except.error e
    | Except.ok ps =>
      match collect_practices rest now with
      | Except.error e => Except.error e
      | Except.ok tail => Except.ok (ps ++ tail)

/-- `EnhancedGitHubAnalyzer._extract_best_practices`: collect the
practices over the candidates, then `list(set(practices))` (modelled with
`List.dedup`; the Python set iteration order is unspecified). -/
def extract_best_practices (repositories : List CandidateRepo) (now : ℚ) :
    Except Unit (List String) :=
  (collect_practices repositories now).map (fun practices => practices.dedup)

/-- `EnhancedGitHubAnalyzer._analyze_top_repositories`.  An empty
candidate list returns the empty dict (`none`); the surrounding
`try/except` turns any exception raised inside — in particular a
timestamp `ParseError` escaping `_extract_best_practices` — into the
empty dict as well. -/
def analyze_top_repositories (repositories : List CandidateRepo) (now : ℚ) :
    Option TopReposAnalysis :=
  if repositories = [] then none
  else
    let top_repos := repositories.take 5
    let average_stars : ℚ :=
      ((top_repos.map (fun r => r.stargazers_count)).sum : ℚ) / top_repos.length
    let average_forks : ℚ :=
      ((top_repos.map (fun r => r.forks_count)).sum : ℚ) / top_repos.length
    let common_languages :=
      top_repos.foldl (fun m r =>
        match r.language with
        | some lang => bump_count m lang
        | none => m) []
    let common_topics :=
      top_repos.foldl (fun m r =>
        r.topics.foldl (fun m topic => bump_count m topic) m) []
    match extract_best_practices top_repos now with
    | Except.error _ => none
    | Except.ok best_practices =>
      some { total_analyzed := top_repos.length
             average_stars := average_stars
             average_forks := average_forks
             common_languages := common_languages
             common_topics := common_topics
             best_practices := best_practices }

/-- A healthy candidate: every field parseable, plenty of signals. -/
def goodCandidate : CandidateRepo :=
  { full_name := "acme/solid-project"
    stargazers_count := 500
    forks_count := 80
    description := some (String.mk (List.replicate 60 'x'))
    language := some "Python"
    topics := ["web", "api", "backend", "fastapi"]
    updated_at := some 19990 }

/-- A candidate whose `updated_at` string `datetime.fromisoformat`
rejects. -/
def badTimestampCandidate : CandidateRepo :=
  { full_name := "acme/broken-timestamp"
    stargazers_count := 200
    forks_count := 10
    description := some "short"
    language := some "Go"
    topics := []
    updated_at := none }

/-- Claim C5 (code evaluated at the failing input): one candidate with an
unparseable timestamp aborts the whole comparison-set aggregation — the
aggregate comes back empty (`none`), so the other candidate's mean-star,
frequency-map and best-practice statistics are not produced, even though
that candidate alone aggregates fine. -/
theorem C5_parse_failure_aborts_aggregation :
    analyze_top_repositories [goodCandidate, badTimestampCandidate] 20000 = none ∧
    (analyze_top_repositories [goodCandidate] 20000).isSome = true := by
  constructor
  · decide
  · decide

/-- One improvement recommendation of
`EnhancedGitHubAnalyzer._generate_improvement_recommendations`.  The
interpolated free-text `description` is not modelled, except for the data
it carries that downstream text lists: `topics_listed` holds the
`missing_topics[:5]` that the "Add Relevant Topics" description
enumerates (empty for every other recommendation). -/
structure Recommendation where
  category : String
  title : String
  priority : String
  action_items : List String
  topics_listed : List String
deriving DecidableEq, Repr

/-- The "Compare with top repositories" block of
`EnhancedGitHubAnalyzer._generate_improvement_recommendations`
(skipped entirely when `top_repos_analysis` is the empty, falsy dict). -/
def comparison_recs (repository : RepositoryData)
    (top : Option TopReposAnalysis) : List Recommendation :=
  match top with
  | none => []
  | some a =>
    (if (repository.stars : ℚ) < a.average_stars * 0.1 then
      [{ category := "Community Engagement"
         title := "Increase Repository Visibility"
         priority := "high"
         action_items :=
           ["Add comprehensive README with screenshots",
            "Create demo videos or live examples",
            "Share on social media and developer communities",
            "Write blog posts about your project"]
         topics_listed := [] }]
    else []) ++
    (if (repository.forks : ℚ) < a.average_forks * 0.1 then
      [{ category := "Community Contribution"
         title := "Encourage Community Contributions"
         priority := "medium"
         action_items :=
           ["Add CONTRIBUTING.md file",
            "Create good first issue labels",
            "Add code of conduct",
            "Set up issue templates"]
         topics_listed := [] }]
    else [])

/-- The "Language-specific recommendations" block; it reads
`top_repos_analysis.get('common_languages', {})` outside the falsiness
guard, so an empty analysis yields an empty map. -/
def language_recs (repository : RepositoryData)
    (top : Option TopReposAnalysis) : List Recommendation :=
  let common_languages := match top with
    | none => []
    | some a => a.common_languages
  match repository.language with
  | none => []
  | some lang =>
    match common_languages.lookup lang with
    | none => []
    | some lang_count =>
      if lang_count ≥ 3 then
        [{ category := "Technology Stack"
           title := "Leverage " ++ lang ++ " Best Practices"
           priority := "medium"
           action_items :=
             ["Follow " ++ lang ++ " style guides",
              "Add proper linting and formatting",
              "Use modern " ++ lang ++ " features",
              "Add comprehensive tests"]
           topics_listed := [] }]
      else []

/-- The `missing_topics` accumulation of the "Topic recommendations"
block: topics of the comparison map occurring at least twice that the
target does not already have, in map insertion order. -/
def missing_topics (repository : RepositoryData)
    (common_topics : List (String × Nat)) : List String :=
  (common_topics.filter (fun p =>
    decide (p.1 ∉ repository.topics ∧ 2 ≤ p.2))).map Prod.fst

/-- The "Topic recommendations" block; note the `if repository.topics:`
guard — a target with an empty topic list never receives this
recommendation. -/
def topic_recs (repository : RepositoryData)
    (top : Option TopReposAnalysis) : List Recommendation :=
  let common_topics := match top with
    | none => []
    | some a => a.common_topics
  if repository.topics ≠ [] then
    if missing_topics repository common_topics ≠ [] then
      [{ category := "Repository Organization"
         title := "Add Relevant Topics"
         priority := "low"
         action_items :=
           ["Add relevant topics to improve discoverability",
            "Research what topics similar repositories use",
            "Keep topics updated as project evolves"]
         topics_listed := (missing_topics repository common_topics).take 5 }]
    else []
  else []

/-- The "Quality improvements" block. -/
def quality_recs (basic : AnalysisResult) : List Recommendation :=
  if basic.quality_score < 7 then
    [{ category := "Code Quality"
       title := "Improve Code Quality"
       priority := "high"
       action_items :=
         ["Add comprehensive documentation",
          "Write unit tests",
          "Improve code comments",
          "Follow consistent coding standards"]
       topics_listed := [] }]
  else []

/-- The "Development activity" block. -/
def activity_recs (basic : AnalysisResult) : List Recommendation :=
  if basic.activity_score < 6 then
    [{ category := "Development Activity"
       title := "Increase Development Activity"
       priority := "medium"
       action_items :=
         ["Make regular commits",
          "Respond to issues and PRs",
          "Update dependencies regularly",
          "Add new features or improvements"]
       topics_listed := [] }]
  else []

/-- `EnhancedGitHubAnalyzer._generate_improvement_recommendations`: the
rule blocks fire independently, appended in source order. -/
def generate_improvement_recommendations (repository : RepositoryData)
    (basic : AnalysisResult) (top : Option TopReposAnalysis) :
    List Recommendation :=
  comparison_recs repository top ++ language_recs repository top ++
    topic_recs repository top ++ quality_recs basic ++ activity_recs basic

/-- The `enhanced_scores` dict of
`EnhancedGitHubAnalyzer._calculate_enhanced_scores`. -/
structure EnhancedScores where
  technical_score : ℚ
  quality_score : ℚ
  activity_score : ℚ
  overall_score : ℚ
  market_position_score : ℚ
  improvement_potential_score : ℚ
deriving DecidableEq, Repr

/-- `EnhancedGitHubAnalyzer._calculate_enhanced_scores`. -/
def calculate_enhanced_scores (basic : AnalysisResult)
    (top : Option TopReposAnalysis) (improvements : List Recommendation) :
    EnhancedScores :=
  let market_position : ℚ :=
    match top with
    | none => 5
    | some a =>
      let after_stars : ℚ :=
        if a.average_stars > 0 then
          min 10 (((basic.repository.stars : ℚ) / a.average_stars) * 10)
        else 5
      if a.average_forks > 0 then
        (after_stars + min 10 (((basic.repository.forks : ℚ) / a.average_forks) * 10)) / 2
      else after_stars
  let high_priority_improvements :=
    (improvements.filter (fun r => r.priority == "high")).length
  let medium_priority_improvements :=
    (improvements.filter (fun r => r.priority == "medium")).length
  let improvement_potential : ℚ :=
    ((high_priority_improvements * 2 + medium_priority_improvements : Nat) : ℚ) / 10
  let improvement_potential_score := min 10 (5 + improvement_potential)
  let overall_score :=
    (basic.technical_score + basic.quality_score + basic.activity_score +
      market_position + improvement_potential_score) / 5
  { technical_score := basic.technical_score
    quality_score := basic.quality_score
    activity_score := basic.activity_score
    overall_score := overall_score
    market_position_score := market_position
    improvement_potential_score := improvement_potential_score }

theorem market_position_bounds (basic : AnalysisResult)
    (top : Option TopReposAnalysis) (improvements : List Recommendation) :
    0 ≤ (calculate_enhanced_scores basic top improvements).market_position_score ∧
      (calculate_enhanced_scores basic top improvements).market_position_score ≤ 10 := by
  unfold calculate_enhanced_scores
  cases top with
  | none => norm_num
  | some a =>
    simp only
    have hstars : (0 : ℚ) ≤ (basic.repository.stars : ℚ) := Nat.cast_nonneg _
    have hforks : (0 : ℚ) ≤ (basic.repository.forks : ℚ) := Nat.cast_nonneg _
    split_ifs with hf hs hs
    · constructor
      · have h1 : (0 : ℚ) ≤ min 10 (((basic.repository.stars : ℚ) / a.average_stars) * 10) := by
          apply le_min (by norm_num)
          positivity
        have h2 : (0 : ℚ) ≤ min 10 (((basic.repository.forks : ℚ) / a.average_forks) * 10) := by
          apply le_min (by norm_num)
          positivity
        linarith
      · have h1 : min 10 (((basic.repository.stars : ℚ) / a.average_stars) * 10) ≤ 10 :=
          min_le_left _ _
        have h2 : min 10 (((basic.repository.forks : ℚ) / a.average_forks) * 10) ≤ 10 :=
          min_le_left _ _
        linarith
    · constructor
      · have h2 : (0 : ℚ) ≤ min 10 (((basic.repository.forks : ℚ) / a.average_forks) * 10) := by
          apply le_min (by norm_num)
          positivity
        linarith
      · have h2 : min 10 (((basic.repository.forks : ℚ) / a.average_forks) * 10) ≤ 10 :=
          min_le_left _ _
        linarith
    · constructor
      · apply le_min (by norm_num)
        positivity
      · exact min_le_left _ _
    · norm_num

theorem improvement_potential_bounds (basic : AnalysisResult)
    (top : Option TopReposAnalysis) (improvements : List Recommendation) :
    5 ≤ (calculate_enhanced_scores basic top improvements).improvement_potential_score ∧
      (calculate_enhanced_scores basic top improvements).improvement_potential_score ≤ 10 := by
  unfold calculate_enhanced_scores
  constructor
  · apply le_min (by norm_num)
    have : (0 : ℚ) ≤
        (((improvements.filter (fun r => r.priority == "high")).length * 2 +
          (improvements.filter (fun r => r.priority == "medium")).length : Nat) : ℚ) / 10 := by
      positivity
    linarith
  · exact min_le_left _ _

/-- Claim C2: for every basic analysis result (as produced by the
single-repository scorer), every comparison aggregate and every
recommendation list, the five enhanced fields — technical, quality,
activity, market-position, improvement-potential — all lie in [0, 10],
and the enhanced overall score equals the arithmetic mean of those five
fields. -/
theorem C2_enhanced_scores_bounds_and_mean (repository : RepositoryData)
    (languages : List (String × Nat)) (contributors : List Contributor)
    (commits : List Commit) (issues : List Issue) (now : ℚ)
    (top : Option TopReposAnalysis) (improvements : List Recommendation) :
    let basic := analyze_repository repository languages contributors commits issues now
    let e := calculate_enhanced_scores basic top improvements
    (0 ≤ e.technical_score ∧ e.technical_score ≤ 10) ∧
    (0 ≤ e.quality_score ∧ e.quality_score ≤ 10) ∧
    (0 ≤ e.activity_score ∧ e.activity_score ≤ 10) ∧
    (0 ≤ e.market_position_score ∧ e.market_position_score ≤ 10) ∧
    (0 ≤ e.improvement_potential_score ∧ e.improvement_potential_score ≤ 10) ∧
    e.overall_score =
      (e.technical_score + e.quality_score + e.activity_score +
        e.market_position_score + e.improvement_potential_score) / 5 := by
  intro basic e
  have ht := technical_score_bounds repository languages
  have hq := quality_score_bounds repository contributors issues
  have ha := activity_score_bounds repository commits now
  have hm := market_position_bounds basic top improvements
  have hi := improvement_potential_bounds basic top improvements
  have he_t : e.technical_score = calculate_technical_score repository languages := rfl
  have he_q : e.quality_score = calculate_quality_score repository contributors issues := rfl
  have he_a : e.activity_score = calculate_activity_score repository commits now := rfl
  refine ⟨?_, ?_, ?_, ?_, ?_, rfl⟩
  · rw [he_t]; exact ⟨by linarith [ht.1], ht.2⟩
  · rw [he_q]; exact ⟨by linarith [hq.1], hq.2⟩
  · rw [he_a]; exact ⟨by linarith [ha.1], ha.2⟩
  · exact hm
  · exact ⟨by linarith [hi.1], hi.2⟩

/-- Claim C3: the market-position score is 5.0 when no comparison data
exists; `min(10, (stars/meanStars)*10)` when only mean stars is positive;
the average of the star value (or its 5.0 default) with
`min(10, (forks/meanForks)*10)` when mean forks is positive; and in the
scenario stars=150, forks=60 against mean stars 50 and mean forks 20 it
is exactly 10 (each ratio capped at 10 before averaging). -/
theorem C3_market_position_formula (basic : AnalysisResult)
    (improvements : List Recommendation) :
    ((calculate_enhanced_scores basic none improvements).market_position_score = 5) ∧
    (∀ a : TopReposAnalysis, 0 < a.average_stars → a.average_forks ≤ 0 →
      (calculate_enhanced_scores basic (some a) improvements).market_position_score =
        min 10 (((basic.repository.stars : ℚ) / a.average_stars) * 10)) ∧
    (∀ a : TopReposAnalysis, a.average_stars ≤ 0 → 0 < a.average_forks →
      (calculate_enhanced_scores basic (some a) improvements).market_position_score =
        (5 + min 10 (((basic.repository.forks : ℚ) / a.average_forks) * 10)) / 2) ∧
    (∀ a : TopReposAnalysis, 0 < a.average_stars → 0 < a.average_forks →
      (calculate_enhanced_scores basic (some a) improvements).market_position_score =
        (min 10 (((basic.repository.stars : ℚ) / a.average_stars) * 10) +
          min 10 (((basic.repository.forks : ℚ) / a.average_forks) * 10)) / 2) ∧
    (basic.repository.stars = 150 → basic.repository.forks = 60 →
      ∀ a : TopReposAnalysis, a.average_stars = 50 → a.average_forks = 20 →
        (calculate_enhanced_scores basic (some a) improvements).market_position_score = 10) := by
  refine ⟨rfl, ?_, ?_, ?_, ?_⟩
  · intro a hs hf
    unfold calculate_enhanced_scores
    simp only
    rw [if_pos hs, if_neg (not_lt.mpr hf)]
  · intro a hs hf
    unfold calculate_enhanced_scores
    simp only
    rw [if_neg (not_lt.mpr hs), if_pos hf]
  · intro a hs hf
    unfold calculate_enhanced_scores
    simp only
    rw [if_pos hs, if_pos hf]
  · intro hstars hforks a has haf
    unfold calculate_enhanced_scores
    simp only
    rw [hstars, hforks, has, haf]
    norm_num

/-- A concrete repository for the market-position scenario: 150 stars,
60 forks. -/
def exampleRepo : RepositoryData :=
  { id := 1
    name := "chat"
    full_name := "acme/chat"
    description := some "A fast web API for real time chat"
    language := some "Python"
    stars := 150
    forks := 60
    created_at := some 19000
    updated_at := some 19990
    topics := ["web", "chat"]
    size := 2048
    url := "https://example.test/acme/chat" }

/-- Its basic analysis at `now = 20000`. -/
def exampleBasic : AnalysisResult :=
  analyze_repository exampleRepo [("Python", 1000)] [{ login := "alice" }] [] [] 20000

/-- A comparison aggregate with mean stars 50 and mean forks 20. -/
def exampleAgg : TopReposAnalysis :=
  { total_analyzed := 5
    average_stars := 50
    average_forks := 20
    common_languages := [("Python", 3)]
    common_topics := [("web", 2)]
    best_practices := [] }

theorem C3_market_position_witness :
    (0 : ℚ) < exampleAgg.average_stars ∧ (0 : ℚ) < exampleAgg.average_forks ∧
    (calculate_enhanced_scores exampleBasic (some exampleAgg) []).market_position_score = 10 :=
  ⟨by norm_num [exampleAgg], by norm_num [exampleAgg],
   (C3_market_position_formula exampleBasic []).2.2.2.2 rfl rfl exampleAgg rfl rfl⟩

/-- A repository with an empty topic list. -/
def noTopicsRepo : RepositoryData :=
  { id := 2
    name := "bare"
    full_name := "acme/bare"
    description := some "A tool"
    language := none
    stars := 100
    forks := 10
    created_at := some 19000
    updated_at := some 19990
    topics := []
    size := 100
    url := "https://example.test/acme/bare" }

/-- A basic analysis for the bare repository (direct record, scores all
above the quality/activity thresholds). -/
def noTopicsBasic : AnalysisResult :=
  { repository := noTopicsRepo
    technical_score := 8
    quality_score := 9
    activity_score := 9
    overall_score := 26 / 3 }

/-- A comparison aggregate whose topic frequency map has topics occurring
at least twice. -/
def cexAgg : TopReposAnalysis :=
  { total_analyzed := 5
    average_stars := 10
    average_forks := 1
    common_languages := []
    common_topics := [("web", 2), ("api", 3)]
    best_practices := [] }

/-- Counterexample to claim C6 as stated: the comparison map holds topics
occurring at least twice that the target does not have, yet — because the
target's own topic list is empty and the rule is guarded by
`if repository.topics:` — no "Add Relevant Topics" recommendation is
emitted. -/
theorem C6_counterexample_empty_topics :
    (∃ p ∈ cexAgg.common_topics, 2 ≤ p.2 ∧ p.1 ∉ noTopicsRepo.topics) ∧
    ∀ r ∈ generate_improvement_recommendations noTopicsRepo noTopicsBasic (some cexAgg),
      r.title ≠ "Add Relevant Topics" := by
  constructor
  · exact ⟨("web", 2), by decide, by decide, by decide⟩
  · have h1 : comparison_recs noTopicsRepo (some cexAgg) = [] := by
      norm_num [comparison_recs, noTopicsRepo, cexAgg]
    have h2 : language_recs noTopicsRepo (some cexAgg) = [] := rfl
    have h3 : topic_recs noTopicsRepo (some cexAgg) = [] := by
      simp [topic_recs, noTopicsRepo]
    have h4 : quality_recs noTopicsBasic = [] := by
      norm_num [quality_recs, noTopicsBasic]
    have h5 : activity_recs noTopicsBasic = [] := by
      norm_num [activity_recs, noTopicsBasic]
    unfold generate_improvement_recommendations
    rw [h1, h2, h3, h4, h5]
    intro r hr
    exact absurd hr (List.not_mem_nil r)

/-- Claim C6 as amended: whenever the target repository has at least one
topic of its own and the comparison aggregate's topic frequency map
contains a topic occurring at least twice that the target does not
already have, the generator emits a low-priority "Add Relevant Topics"
recommendation listing up to 5 of those missing topics. -/
theorem C6_amended_topic_recommendation (repository : RepositoryData)
    (basic : AnalysisResult) (a : TopReposAnalysis)
    (hne : repository.topics ≠ [])
    (p : String × Nat) (hp : p ∈ a.common_topics) (hc : 2 ≤ p.2)
    (hmiss : p.1 ∉ repository.topics) :
    ∃ r ∈ generate_improvement_recommendations repository basic (some a),
      r.title = "Add Relevant Topics" ∧ r.priority = "low" ∧
      r.topics_listed = (missing_topics repository a.common_topics).take 5 ∧
      r.topics_listed.length ≤ 5 ∧
      ∀ t ∈ r.topics_listed, t ∉ repository.topics ∧
        ∃ q ∈ a.common_topics, q.1 = t ∧ 2 ≤ q.2 := by
  have hfilter : p ∈ a.common_topics.filter (fun q =>
      decide (q.1 ∉ repository.topics ∧ 2 ≤ q.2)) := by
    rw [List.mem_filter]
    exact ⟨hp, decide_eq_true ⟨hmiss, hc⟩⟩
  have hmiss_ne : missing_topics repository a.common_topics ≠ [] := by
    intro hnil
    have hmem : p.1 ∈ missing_topics repository a.common_topics :=
      List.mem_map_of_mem Prod.fst hfilter
    rw [hnil] at hmem
    exact (List.not_mem_nil p.1) hmem
  have htopic : topic_recs repository (some a) =
      [{ category := "Repository Organization"
         title := "Add Relevant Topics"
         priority := "low"
         action_items :=
           ["Add relevant topics to improve discoverability",
            "Research what topics similar repositories use",
            "Keep topics updated as project evolves"]
         topics_listed := (missing_topics repository a.common_topics).take 5 }] := by
    unfold topic_recs
    rw [if_pos hne, if_pos hmiss_ne]
  refine ⟨{ category := "Repository Organization"
            title := "Add Relevant Topics"
            priority := "low"
            action_items :=
              ["Add relevant topics to improve discoverability",
               "Research what topics similar repositories use",
               "Keep topics updated as project evolves"]
            topics_listed := (missing_topics repository a.common_topics).take 5 },
          ?_, rfl, rfl, rfl, ?_, ?_⟩
  · unfold generate_improvement_recommendations
    rw [htopic]
    simp [List.mem_append]
  · simp
  · intro t ht
    have ht' : t ∈ missing_topics repository a.common_topics :=
      List.mem_of_mem_take ht
    unfold missing_topics at ht'
    rw [List.mem_map] at ht'
    obtain ⟨q, hq_mem, hq_eq⟩ := ht'
    rw [List.mem_filter] at hq_mem
    have hq_prop := of_decide_eq_true hq_mem.2
    exact ⟨hq_eq ▸ hq_prop.1, q, hq_mem.1, hq_eq, hq_prop.2⟩

/-- A target that has a topic of its own but misses popular comparison
topics. -/
def hasTopicRepo : RepositoryData :=
  { id := 3
    name := "tool"
    full_name := "acme/tool"
    description := some "A tool"
    language := some "Go"
    stars := 100
    forks := 10
    created_at := some 19000
    updated_at := some 19990
    topics := ["cli"]
    size := 100
    url := "https://example.test/acme/tool" }

/-- Its direct basic-analysis record. -/
def hasTopicBasic : AnalysisResult :=
  { repository := hasTopicRepo
    technical_score := 8
    quality_score := 9
    activity_score := 9
    overall_score := 26 / 3 }

theorem C6_amended_witness :
    hasTopicRepo.topics ≠ [] ∧ ("web", 2) ∈ cexAgg.common_topics ∧
    2 ≤ (("web", 2) : String × Nat).2 ∧ "web" ∉ hasTopicRepo.topics ∧
    ∃ r ∈ generate_improvement_recommendations hasTopicRepo hasTopicBasic (some cexAgg),
      r.title = "Add Relevant Topics" ∧ r.priority = "low" ∧
      r.topics_listed = (missing_topics hasTopicRepo cexAgg.common_topics).take 5 ∧
      r.topics_listed.length ≤ 5 ∧
      ∀ t ∈ r.topics_listed, t ∉ hasTopicRepo.topics ∧
        ∃ q ∈ cexAgg.common_topics, q.1 = t ∧ 2 ≤ q.2 :=
  ⟨by decide, by decide, by decide, by decide,
   C6_amended_topic_recommendation hasTopicRepo hasTopicBasic cexAgg
     (by decide) ("web", 2) (by decide) (by decide) (by decide)⟩

/-- The analysis dict of one repository as consumed by
`PortfolioAnalyzer._process_portfolio_data` — only the keys it reads:
`languages` (byte histogram), `topics`, `scores` (a dict that may lack
keys, modelled as an association list). -/
structure PortfolioRepoAnalysis where
  languages : List (String × Nat)
  topics : List String
  scores : List (String × ℚ)
deriving DecidableEq, Repr

/-- One entry of the ranked language list built by
`PortfolioAnalyzer._rank_languages`. -/
structure LanguageRank where
  language : String
  bytes : Nat
  percentage : ℚ
  rank : Nat
deriving DecidableEq, Repr

/-- Python `round(q, 2)` on the exact rational value (tie-breaking of the
binary-float half-even rounding is abstracted; every bound proved below
only uses that the result is within 1/200 of the argument, which holds
for either tie rule). -/
def round2 (q : ℚ) : ℚ :=
  (round (q * 100) : ℤ) / 100

/-- The descending-bytes ordering of `ranked.sort(key=lambda x:
x['bytes'], reverse=True)` (stable, like Python's sort). -/
def bytes_ge (a b : LanguageRank) : Prop :=
  b.bytes ≤ a.bytes

instance : DecidableRel bytes_ge := fun a b =>
  inferInstanceAs (Decidable (b.bytes ≤ a.bytes))

instance : IsTotal LanguageRank bytes_ge :=
  ⟨fun a b => le_total b.bytes a.bytes⟩

instance : IsTrans LanguageRank bytes_ge :=
  ⟨fun _ _ _ hab hbc => le_trans hbc hab⟩

/-- `PortfolioAnalyzer._rank_languages`: percentage of the grand byte
total (rounded to two decimals), sorted descending by bytes, rank
`i + 1`, top 10.  A zero grand total returns the empty list. -/
def rank_languages (languages : List (String × Nat)) : List LanguageRank :=
  let total_bytes := (languages.map Prod.snd).sum
  if total_bytes = 0 then []
  else
    let ranked := languages.map (fun p =>
      { language := p.1
        bytes := p.2
        percentage := round2 (((p.2 : ℚ) / (total_bytes : ℚ)) * 100)
        rank := 0 })
    let sorted := ranked.insertionSort bytes_ge
    (sorted.enum.map (fun p => { p.2 with rank := p.1 + 1 })).take 10

/-- `PortfolioAnalyzer._get_top_topics`: occurrence counts in insertion
order, sorted descending by count, top 15. -/
def get_top_topics (topics : List String) : List (String × Nat) :=
  let topic_counts := topics.foldl (fun m topic => bump_count m topic) []
  ((topic_counts.insertionSort (fun a b => b.2 ≤ a.2)).take 15)

/-- `PortfolioAnalyzer._calculate_average_scores`: for each of the four
score keys, the rounded mean of the values present (a key missing from
every dict contributes 0.0). -/
def calculate_average_scores (scores : List (List (String × ℚ))) :
    List (String × ℚ) :=
  if scores = [] then []
  else
    ["technical", "quality", "activity", "overall"].map (fun key =>
      let values := scores.filterMap (fun s => s.lookup key)
      if values ≠ [] then (key, round2 (values.sum / values.length))
      else (key, 0))

/-- The ordered category table of `PortfolioAnalyzer._categorize_project`. -/
def project_categories : List (String × List String) :=
  [("web-development", ["web", "frontend", "backend", "fullstack", "react", "vue", "angular"]),
   ("mobile-development", ["mobile", "ios", "android", "react-native", "flutter"]),
   ("ai-ml", ["ai", "ml", "machine-learning", "deep-learning", "nlp", "computer-vision"]),
   ("data-science", ["data", "analytics", "visualization", "pandas", "numpy", "matplotlib"]),
   ("devops", ["devops", "docker", "kubernetes", "ci-cd", "aws", "azure"]),
   ("backend", ["api", "server", "database", "postgresql", "mongodb", "redis"]),
   ("frontend", ["ui", "ux", "design", "css", "html", "javascript"]),
   ("game-development", ["game", "unity", "unreal", "gaming"]),
   ("blockchain", ["blockchain", "crypto", "web3", "solidity"]),
   ("other", [])]

/-- `PortfolioAnalyzer._categorize_project`: first category whose keyword
set meets the topics, then first whose keyword set meets the language
keys, else `other`. -/
def categorize_project (analysis : PortfolioRepoAnalysis) : String :=
  match project_categories.find? (fun c =>
      c.2.any (fun keyword => analysis.topics.contains keyword)) with
  | some c => c.1
  | none =>
    match project_categories.find? (fun c =>
        c.2.any (fun keyword => (analysis.languages.map Prod.fst).contains keyword)) with
    | some c => c.1
    | none => "other"

/-- `PortfolioAnalyzer._count_categories`. -/
def count_categories (categories : List String) : List (String × Nat) :=
  categories.foldl (fun m category => bump_count m category) []

/-- `d[k] = d.get(k, 0) + v` for the byte-histogram summation. -/
def add_bytes (m : List (String × Nat)) (key : String) (v : Nat) :
    List (String × Nat) :=
  if key ∈ m.map Prod.fst then
    m.map (fun p => if p.1 = key then (p.1, p.2 + v) else p)
  else m ++ [(key, v)]

/-- The `portfolio_data` dict of
`PortfolioAnalyzer._process_portfolio_data`. -/
structure PortfolioData where
  languages : List LanguageRank
  topics : List (String × Nat)
  average_scores : List (String × ℚ)
  project_categories : List (String × Nat)
  total_projects : Nat
  active_projects : Nat
  high_quality_projects : Nat
deriving DecidableEq, Repr

/-- `PortfolioAnalyzer._process_portfolio_data`; an empty analysis list
returns the empty dict (`none`). -/
def process_portfolio_data (analyses : List PortfolioRepoAnalysis) :
    Option PortfolioData :=
  if analyses = [] then none
  else
    let languages := analyses.foldl (fun m analysis =>
      analysis.languages.foldl (fun m p => add_bytes m p.1 p.2) m) []
    let topics := analyses.foldl (fun acc analysis => acc ++ analysis.topics) []
    let scores := analyses.filterMap (fun analysis =>
      if analysis.scores ≠ [] then some analysis.scores else none)
    let categories := analyses.map categorize_project
    some { languages := rank_languages languages
           topics := get_top_topics topics
           average_scores := calculate_average_scores scores
           project_categories := count_categories categories
           total_projects := analyses.length
           active_projects := (analyses.filter (fun analysis =>
             decide (5 < (analysis.scores.lookup "activity").getD 0))).length
           high_quality_projects := (analyses.filter (fun analysis =>
             decide (7 < (analysis.scores.lookup "quality").getD 0))).length }

/-- The portfolio-analysis record assembled by
`PortfolioAnalyzer.analyze_portfolio` (the AI-insight, recommendation and
guidance text bundles are collaborator narrative and are omitted). -/
structure PortfolioAnalysis where
  username : String
  total_repositories : Nat
  analyzed_repositories : Nat
  portfolio_data : Option PortfolioData
deriving DecidableEq, Repr

/-- The pure core of `PortfolioAnalyzer.analyze_portfolio`: `fetched`
pairs each repository name of the account with the outcome of its
per-repository pipeline (`none` = the `try` around
`github_analyzer.analyze_repository` caught an exception and the loop
`continue`d).  The aggregate counts all repositories, counts the
successes, and feeds only the successes to
`_process_portfolio_data`. -/
def analyze_portfolio (username : String)
    (fetched : List (String × Option PortfolioRepoAnalysis)) :
    PortfolioAnalysis :=
  let analyses := fetched.filterMap Prod.snd
  { username := username
    total_repositories := fetched.length
    analyzed_repositories := analyses.length
    portfolio_data := process_portfolio_data analyses }

/-- Claim C4: a per-repository pipeline failure only drops that
repository — the aggregate reports the total repository count and the
successfully-analyzed count, every derived statistic is computed from the
successes alone, and a 5-repository portfolio with 2 failures reports
total=5, analyzed=3. -/
theorem C4_partial_failure_isolation (username : String)
    (fetched : List (String × Option PortfolioRepoAnalysis)) :
    ((analyze_portfolio username fetched).total_repositories = fetched.length ∧
     (analyze_portfolio username fetched).analyzed_repositories =
       (fetched.filterMap Prod.snd).length ∧
     (analyze_portfolio username fetched).portfolio_data =
       process_portfolio_data (fetched.filterMap Prod.snd)) ∧
    ∀ (n₁ n₂ n₃ n₄ n₅ : String) (a₁ a₂ a₃ : PortfolioRepoAnalysis),
      (analyze_portfolio username
          [(n₁, some a₁), (n₂, none), (n₃, some a₂), (n₄, none), (n₅, some a₃)]).total_repositories = 5 ∧
      (analyze_portfolio username
          [(n₁, some a₁), (n₂, none), (n₃, some a₂), (n₄, none), (n₅, some a₃)]).analyzed_repositories = 3 ∧
      (analyze_portfolio username
          [(n₁, some a₁), (n₂, none), (n₃, some a₂), (n₄, none), (n₅, some a₃)]).portfolio_data =
        process_portfolio_data [a₁, a₂, a₃] := by
  refine ⟨⟨rfl, rfl, rfl⟩, ?_⟩
  intro n₁ n₂ n₃ n₄ n₅ a₁ a₂ a₃
  exact ⟨rfl, rfl, rfl⟩

theorem round2_close (q : ℚ) : |round2 q - q| ≤ 1 / 200 := by
  have h : |q * 100 - round (q * 100)| ≤ 1 / 2 := abs_sub_round (q * 100)
  have heq : round2 q - q = -(q * 100 - (round (q * 100) : ℤ)) / 100 := by
    unfold round2
    ring
  rw [heq, abs_div, abs_neg, show |(100 : ℚ)| = 100 from by norm_num]
  linarith

theorem sum_map_round2_close (qs : List ℚ) :
    |(qs.map round2).sum - qs.sum| ≤ (qs.length : ℚ) * (1 / 200) := by
  induction qs with
  | nil => simp
  | cons q rest ih =>
    simp only [List.map_cons, List.sum_cons, List.length_cons]
    have h := round2_close q
    have habs : |(round2 q + (rest.map round2).sum) - (q + rest.sum)| ≤
        |round2 q - q| + |(rest.map round2).sum - rest.sum| := by
      have := abs_add (round2 q - q) ((rest.map round2).sum - rest.sum)
      calc |(round2 q + (rest.map round2).sum) - (q + rest.sum)|
          = |(round2 q - q) + ((rest.map round2).sum - rest.sum)| := by ring_nf
        _ ≤ |round2 q - q| + |(rest.map round2).sum - rest.sum| := this
    push_cast
    linarith

theorem sum_map_pct (bs : List Nat) (T : ℚ) :
    (bs.map (fun (b : Nat) => ((b : ℚ) / T) * 100)).sum = ((bs.sum : ℚ) / T) * 100 := by
  induction bs with
  | nil => simp
  | cons b rest ih =>
    simp only [List.map_cons, List.sum_cons, ih]
    push_cast
    ring

theorem enum_rank_map_percentage (l : List LanguageRank) :
    ((l.enum.map (fun p => { p.2 with rank := p.1 + 1 })).map
        (fun e => e.percentage)) = l.map (fun e => e.percentage) := by
  rw [List.map_map]
  rw [show ((fun e : LanguageRank => e.percentage) ∘
      (fun p : Nat × LanguageRank => { p.2 with rank := p.1 + 1 })) =
      ((fun e : LanguageRank => e.percentage) ∘ Prod.snd) from rfl]
  rw [← List.map_map, List.enum_map_snd]

theorem enum_rank_map_bytes (l : List LanguageRank) :
    ((l.enum.map (fun p => { p.2 with rank := p.1 + 1 })).map
        (fun e => e.bytes)) = l.map (fun e => e.bytes) := by
  rw [List.map_map]
  rw [show ((fun e : LanguageRank => e.bytes) ∘
      (fun p : Nat × LanguageRank => { p.2 with rank := p.1 + 1 })) =
      ((fun e : LanguageRank => e.bytes) ∘ Prod.snd) from rfl]
  rw [← List.map_map, List.enum_map_snd]

/-- Counterexample to claim C7 as stated: a portfolio with a single
distinct language — fewer than 10 — whose ranked percentage list sums to
exactly 100, not to strictly less than 100. -/
theorem C7_counterexample_single_language :
    (rank_languages [("Python", 100)]).length = 1 ∧
    ((rank_languages [("Python", 100)]).map (fun e => e.percentage)).sum = 100 ∧
    ¬ ((rank_languages [("Python", 100)]).map (fun e => e.percentage)).sum < 100 := by
  have h : rank_languages [("Python", 100)] =
      [{ language := "Python", bytes := 100, percentage := 100, rank := 1 }] := by
    unfold rank_languages
    rw [show (([("Python", 100)] : List (String × Nat)).map Prod.snd).sum = 100 from rfl]
    rw [if_neg (by norm_num)]
    simp only [List.map_cons, List.map_nil, List.insertionSort, List.orderedInsert,
      List.enum, List.enumFrom, List.take]
    norm_num [round2, round_ofNat]
  rw [h]
  norm_num

/-- Claim C7 as amended: with at most 10 distinct languages (and a
positive byte total) the ranked percentages sum to 100 up to the rounding
slack of 0.05; with more than 10 distinct languages, all holding positive
bytes, the top-10 entries cover strictly less than 100 percent of the
byte total (their exact, unrounded shares sum below 100). -/
theorem C7_amended_percentage_sums (languages : List (String × Nat)) :
    (languages.length ≤ 10 → (languages.map Prod.snd).sum ≠ 0 →
      |((rank_languages languages).map (fun e => e.percentage)).sum - 100| ≤ 1 / 20) ∧
    (10 < languages.length → (∀ p ∈ languages, 0 < p.2) →
      ((rank_languages languages).map (fun (e : LanguageRank) =>
          ((e.bytes : ℚ) / (((languages.map Prod.snd).sum : ℕ) : ℚ)) * 100)).sum < 100) := by
  constructor
  · intro hlen hT
    unfold rank_languages
    rw [if_neg hT]
    set T : ℕ := (languages.map Prod.snd).sum with hTdef
    set ranked := languages.map (fun p =>
      ({ language := p.1
         bytes := p.2
         percentage := round2 (((p.2 : ℚ) / (T : ℚ)) * 100)
         rank := 0 } : LanguageRank)) with hranked
    set sorted := ranked.insertionSort bytes_ge with hsorted
    have hlen_sorted : (sorted.enum.map
        (fun p => { p.2 with rank := p.1 + 1 })).length ≤ 10 := by
      simp only [List.length_map, List.enum_length, hsorted,
        List.length_insertionSort, hranked]
      exact hlen
    rw [List.take_of_length_le hlen_sorted, enum_rank_map_percentage]
    have hperm : (sorted.map (fun e => e.percentage)).Perm
        (ranked.map (fun e => e.percentage)) :=
      (List.perm_insertionSort bytes_ge ranked).map _
    rw [hperm.sum_eq]
    have hmaps : ranked.map (fun e => e.percentage) =
        ((languages.map Prod.snd).map
          (fun (b : Nat) => ((b : ℚ) / (T : ℚ)) * 100)).map round2 := by
      simp only [hranked, List.map_map]
      rfl
    rw [hmaps]
    have hclose := sum_map_round2_close
      ((languages.map Prod.snd).map (fun (b : Nat) => ((b : ℚ) / (T : ℚ)) * 100))
    have hsum : ((languages.map Prod.snd).map
        (fun (b : Nat) => ((b : ℚ) / (T : ℚ)) * 100)).sum = 100 := by
      rw [sum_map_pct, ← hTdef, div_self (by exact_mod_cast hT), one_mul]
    rw [hsum] at hclose
    have hlen2 : ((((languages.map Prod.snd).map
        (fun (b : Nat) => ((b : ℚ) / (T : ℚ)) * 100)).length : ℕ) : ℚ) ≤ 10 := by
      simp only [List.length_map]
      exact_mod_cast hlen
    linarith [hclose, hlen2]
  · intro hlen hpos
    set T : ℕ := (languages.map Prod.snd).sum with hTdef
    have hT : T ≠ 0 := by
      intro h0
      obtain ⟨p, hp⟩ := List.exists_mem_of_ne_nil languages
        (by intro h; rw [h] at hlen; simp at hlen)
      have hmem : p.2 ∈ languages.map Prod.snd := List.mem_map_of_mem Prod.snd hp
      have hz : p.2 = 0 := List.sum_eq_zero_iff.mp (hTdef ▸ h0) p.2 hmem
      exact absurd hz (hpos p hp).ne'
    unfold rank_languages
    rw [← hTdef, if_neg hT]
    set ranked := languages.map (fun p =>
      ({ language := p.1
         bytes := p.2
         percentage := round2 (((p.2 : ℚ) / (T : ℚ)) * 100)
         rank := 0 } : LanguageRank)) with hranked
    set sorted := ranked.insertionSort bytes_ge with hsorted
    rw [List.map_take]
    have hx : ((sorted.enum.map (fun p => { p.2 with rank := p.1 + 1 })).map
        (fun (e : LanguageRank) => ((e.bytes : ℚ) / (T : ℚ)) * 100)) =
        sorted.map (fun (e : LanguageRank) => ((e.bytes : ℚ) / (T : ℚ)) * 100) := by
      rw [List.map_map]
      rw [show ((fun (e : LanguageRank) => ((e.bytes : ℚ) / (T : ℚ)) * 100) ∘
          (fun p : Nat × LanguageRank => { p.2 with rank := p.1 + 1 })) =
          ((fun (e : LanguageRank) => ((e.bytes : ℚ) / (T : ℚ)) * 100) ∘ Prod.snd) from rfl]
      rw [← List.map_map, List.enum_map_snd]
    rw [hx]
    have hy : sorted.map (fun (e : LanguageRank) => ((e.bytes : ℚ) / (T : ℚ)) * 100) =
        (sorted.map (fun e => e.bytes)).map
          (fun (b : Nat) => ((b : ℚ) / (T : ℚ)) * 100) := by
      rw [List.map_map]
      rfl
    rw [hy, ← List.map_take, sum_map_pct]
    set sb := sorted.map (fun e => e.bytes) with hsb
    have hsb_perm : sb.Perm (ranked.map (fun e => e.bytes)) :=
      (List.perm_insertionSort bytes_ge ranked).map _
    have hsb_sum : sb.sum = T := by
      rw [hsb_perm.sum_eq, hranked, List.map_map, hTdef]
      rfl
    have hsb_len : sb.length = languages.length := by
      rw [hsb, List.length_map, hsorted, List.length_insertionSort, hranked,
        List.length_map]
    have hdrop_ne : sb.drop 10 ≠ [] := by
      intro h
      have hlen0 := congrArg List.length h
      rw [List.length_drop, hsb_len] at hlen0
      simp at hlen0
      omega
    have hdrop_pos : ∀ b ∈ sb.drop 10, 0 < b := by
      intro b hb
      have hb1 : b ∈ sb := List.mem_of_mem_drop hb
      have hb2 : b ∈ ranked.map (fun e => e.bytes) := hsb_perm.mem_iff.mp hb1
      rw [hranked, List.map_map] at hb2
      obtain ⟨p, hp, hpb⟩ := List.mem_map.mp hb2
      exact hpb ▸ hpos p hp
    have hdrop_sum : 0 < (sb.drop 10).sum := by
      obtain ⟨b, hb⟩ := List.exists_mem_of_ne_nil _ hdrop_ne
      exact lt_of_lt_of_le (hdrop_pos b hb)
        (List.single_le_sum (fun x _ => Nat.zero_le x) b hb)
    have htake_lt : (sb.take 10).sum < T := by
      have hsplit := List.sum_take_add_sum_drop sb 10
      omega
    have hTpos : (0 : ℚ) < (T : ℚ) := by
      exact_mod_cast Nat.pos_of_ne_zero hT
    have hlt : (((sb.take 10).sum : ℕ) : ℚ) < (T : ℚ) := by exact_mod_cast htake_lt
    have hdivlt : (((sb.take 10).sum : ℕ) : ℚ) / (T : ℚ) < 1 :=
      (div_lt_one hTpos).mpr hlt
    nlinarith [hdivlt]

/-- Eleven distinct languages, one byte each. -/
def elevenLangs : List (String × Nat) :=
  [("l01", 1), ("l02", 1), ("l03", 1), ("l04", 1), ("l05", 1), ("l06", 1),
   ("l07", 1), ("l08", 1), ("l09", 1), ("l10", 1), ("l11", 1)]

theorem C7_amended_witness :
    (([("Python", 100)] : List (String × Nat)).length ≤ 10 ∧
     (([("Python", 100)] : List (String × Nat)).map Prod.snd).sum ≠ 0 ∧
     |((rank_languages [("Python", 100)]).map (fun e => e.percentage)).sum - 100| ≤ 1 / 20) ∧
    (10 < elevenLangs.length ∧ (∀ p ∈ elevenLangs, 0 < p.2) ∧
     ((rank_languages elevenLangs).map (fun (e : LanguageRank) =>
         ((e.bytes : ℚ) / (((elevenLangs.map Prod.snd).sum : ℕ) : ℚ)) * 100)).sum < 100) :=
  ⟨⟨by decide, by decide,
    (C7_amended_percentage_sums [("Python", 100)]).1 (by decide) (by decide)⟩,
   ⟨by decide, by decide,
    (C7_amended_percentage_sums elevenLangs).2 (by decide) (by decide)⟩⟩

/-- Claim C9: keyword extraction lower-cases the input, tokenizes on word
boundaries, drops every token of length at most 2 or in the fixed
stop-word list, keeps the first ten surviving tokens in order, and on
"A fast web API for real time chat" yields the ordered list
beginning with "fast", "web", "api". -/
theorem C9_keyword_extraction (text : String) :
    (extract_keywords text).length ≤ 10 ∧
    (∀ w ∈ extract_keywords text, 2 < w.length ∧ w ∉ common_words) ∧
    extract_keywords text =
      ((findall_word_tokens (str_lower text)).filter
        (fun word => decide (2 < word.length ∧ word ∉ common_words))).take 10 ∧
    extract_keywords "A fast web API for real time chat" =
      ["fast", "web", "api", "real", "time", "chat"] := by
  have hdef : extract_keywords text =
      ((findall_word_tokens (str_lower text)).filter
        (fun word => decide (2 < word.length ∧ word ∉ common_words))).take 10 := by
    unfold extract_keywords
    split_ifs with h
    · rw [h]
      rfl
    · rfl
  refine ⟨?_, ?_, hdef, by decide⟩
  · rw [hdef]
    exact List.length_take_le _ _
  · intro w hw
    rw [hdef] at hw
    have hw1 := List.mem_of_mem_take hw
    rw [List.mem_filter] at hw1
    exact of_decide_eq_true hw1.2

theorem C9_keyword_extraction_witness :
    "fast" ∈ extract_keywords "A fast web API for real time chat" ∧
    (2 < ("fast" : String).length ∧ "fast" ∉ common_words) :=
  ⟨by decide,
   (C9_keyword_extraction "A fast web API for real time chat").2.1 "fast" (by decide)⟩

end Portfolio
